import Mathlib

/-!
Verification of the research-aggregator pipeline (src/main.py).

The program is sequential glue: a grounded web-search extractor
(`search_google`), a scholarly RSS client (`search_cinii`), and an HTML
report renderer (`generate_html_report`).  This file embeds those
operations shallowly: Python strings become Lean `String`, Python dicts
keyed by URL become insertion-ordered association lists, XML elements
become optional fields on an `Item` structure, and the try/except
boundaries become explicit sum types.
-/

/-- Model of Python `str.strip()` restricted to the ASCII whitespace the
feed data can carry: drops leading and trailing whitespace characters,
leaving interior characters (including newlines) untouched. -/
def pyWhitespace (c : Char) : Bool :=
  c = ' ' || c = '\t' || c = '\n' || c = '\r' || c = '\x0b' || c = '\x0c'

/-- Python `s.strip()`: remove leading and trailing whitespace. -/
def pyStrip (s : String) : String :=
  ⟨((s.data.dropWhile pyWhitespace).reverse.dropWhile pyWhitespace).reverse⟩

/-- Python `s[:n]`: the first `n` characters (code points) of `s`. -/
def pyTake (n : Nat) (s : String) : String :=
  ⟨s.data.take n⟩

/-- A normalized search record, the program's only entity.  Google
records carry no `authors` key (`none`); CiNii records always do. -/
structure Rec where
  title : String
  url : String
  summary : String
  authors : Option String
  source : String
  deriving DecidableEq

/-- The `web` payload of a grounding chunk: a URI/title pair.  Python
truthiness of a missing or `None` attribute is folded into the empty
string, which the extractor likewise skips. -/
structure GWeb where
  uri : String
  title : String
  deriving DecidableEq

/-- One grounding chunk of the model response: optionally a web payload. -/
structure Chunk where
  web : Option GWeb
  deriving DecidableEq

/-- The record `search_google` builds for one accepted chunk
(src/main.py lines 42-47). -/
def mkGoogleRec (w : GWeb) : Rec :=
  { title := w.title
    url := w.uri
    summary := "Google Search Result (Gemini Grounding)"
    authors := none
    source := "Google" }

/-- The loop of src/main.py lines 40-47: chunks whose `web` payload lacks
a URI or a title are silently skipped; the rest become records in chunk
order. -/
def extractRecords (chunks : List Chunk) : List Rec :=
  chunks.filterMap (fun c =>
    match c.web with
    | some w => if w.uri = "" ∨ w.title = "" then none else some (mkGoogleRec w)
    | none => none)

/-- Insertion into a Python dict, modelled on an association list:
if the key is present its value is replaced in place (position kept),
otherwise the pair is appended at the end.  This is exactly the
insertion-ordered, overwrite-in-place semantics of CPython dicts. -/
def insertOrdered (m : List (String × Rec)) (k : String) (v : Rec) :
    List (String × Rec) :=
  match m with
  | [] => [(k, v)]
  | (k', v') :: rest =>
      if k' = k then (k', v) :: rest else (k', v') :: insertOrdered rest k v

/-- The dict comprehension of src/main.py line 50:
`{r['url']: r for r in results}.values()` — build the dict by inserting
in list order, then read the values back in dict (insertion) order. -/
def dedupByUrl (rs : List Rec) : List Rec :=
  (rs.foldl (fun m r => insertOrdered m r.url r) []).map Prod.snd

/-- `search_google` on the sequence of grounding chunks of the response
(src/main.py lines 34-51): extract one record per accepted chunk, then
deduplicate by URL through the dict comprehension. -/
def search_google (chunks : List Chunk) : List Rec :=
  dedupByUrl (extractRecords chunks)

/-- One `rss:item` node of the CiNii RSS payload, reduced to the fields
src/main.py reads.  `none` models a missing element; ElementTree's
`.text` of an empty element is `None`, which the code's truthiness test
conflates with the empty string, so both are represented here. -/
structure Item where
  title : Option String
  link : Option String
  description : Option String
  creators : List (Option String)
  pubDate : Option String
  deriving DecidableEq

/-- The per-item body of the loop at src/main.py lines 87-124: defaults
for missing or empty elements, `.strip()` on the texts, 300-character
truncation of the summary, creators joined with ", ", and the optional
" (date)" suffix appended to the authors string. -/
def parseItem (item : Item) : Rec :=
  let title := match item.title with
    | some t => if t = "" then "No Title" else pyStrip t
    | none => "No Title"
  let link := match item.link with
    | some l => if l = "" then "" else pyStrip l
    | none => ""
  let summary := match item.description with
    | some d => if d = "" then "No description available." else pyStrip d
    | none => "No description available."
  let names := (item.creators.filterMap id).filter (fun s => s ≠ "")
  let dateStr := match item.pubDate with
    | some d => if d = "" then "" else " (" ++ d ++ ")"
    | none => ""
  { title := title
    url := link
    summary := if summary.length > 300 then pyTake 300 summary ++ "..." else summary
    authors := some (String.intercalate ", " names ++ dateStr)
    source := "CiNii" }

/-- Outcome of the CiNii HTTP call and XML parse, as `search_cinii`
observes it: the transport may raise, otherwise there is a status code
and a body whose XML parse either fails (raising `ParseError`) or yields
the list of `rss:item` nodes. -/
inductive FetchResult where
  | fail : FetchResult
  | resp : Nat → Except Unit (List Item) → FetchResult

/-- `search_cinii` (src/main.py lines 57-130): the whole body sits in a
try/except returning `[]`, a non-200 status returns `[]` early, a parse
failure raises into the handler, and otherwise every item is parsed. -/
def search_cinii : FetchResult → List Rec
  | .fail => []
  | .resp status body =>
      if status ≠ 200 then []
      else
        match body with
        | .error _ => []
        | .ok items => items.map parseItem

/-- The Google card f-string of src/main.py line 139, verbatim: fields
are spliced into the markup with no escaping. -/
def googleCard (r : Rec) : String :=
  "<div class=\"card\"><div class=\"title\"><a href=\"" ++ r.url ++
  "\" target=\"_blank\">" ++ r.title ++ "</a></div><div class=\"meta\">" ++
  r.url ++ "</div><div class=\"summary\">" ++ r.summary ++ "</div></div>"

/-- The CiNii card f-string of src/main.py line 146, verbatim; the
authors field is read with `r.get("authors", "")`. -/
def ciniiCard (r : Rec) : String :=
  "<div class=\"card\"><div class=\"title\"><a href=\"" ++ r.url ++
  "\" target=\"_blank\">" ++ r.title ++
  "</a></div><div class=\"meta\"><strong>Authors/Date:</strong> " ++
  r.authors.getD "" ++ "</div><div class=\"summary\">" ++ r.summary ++
  "</div></div>"

/-- The Google section of the report (src/main.py lines 136-141): one
card per record in order, or the literal placeholder when the result
list is empty. -/
def google_html (rs : List Rec) : String :=
  if rs.isEmpty then "<p>No results found.</p>"
  else rs.foldl (fun acc r => acc ++ googleCard r) ""

/-- The CiNii section of the report (src/main.py lines 143-148). -/
def cinii_html (rs : List Rec) : String :=
  if rs.isEmpty then "<p>No results found.</p>"
  else rs.foldl (fun acc r => acc ++ ciniiCard r) ""

/-- Whether `p` occurs at the start of `l`. -/
def startsWithB : List Char → List Char → Bool
  | [], _ => true
  | _ :: _, [] => false
  | a :: as, b :: bs => a = b && startsWithB as bs

/-- Whether `p` occurs as a contiguous run anywhere in `l`. -/
def hasSub (p : List Char) : List Char → Bool
  | [] => startsWithB p []
  | l@(_ :: rest) => startsWithB p l || hasSub p rest

/-- One step of first-occurrence deduplication on keys: keep the list if
the key was seen, append it otherwise. -/
def occStep (ks : List String) (k : String) : List String :=
  if k ∈ ks then ks else ks ++ [k]

/-- The keys of a Python dict built by inserting a list of keys in
order: each key appears once, at the position of its first occurrence. -/
def firstOccs (l : List String) : List String :=
  l.foldl occStep []

/-- The last record in `rs` whose URL is `u`, if any. -/
def lastWith (u : String) : List Rec → Option Rec
  | [] => none
  | r :: rest =>
      match lastWith u rest with
      | some x => some x
      | none => if r.url = u then some r else none

/-- First-match association-list lookup. -/
def alookup (m : List (String × Rec)) (k : String) : Option Rec :=
  match m with
  | [] => none
  | (k', v) :: rest => if k' = k then some v else alookup rest k

/-- The key sequence of an association list. -/
def keys (m : List (String × Rec)) : List String :=
  m.map Prod.fst

/-! ### Helper lemmas about the insertion-ordered map -/

theorem keys_insertOrdered (m : List (String × Rec)) (k : String) (v : Rec) :
    keys (insertOrdered m k v) = occStep (keys m) k := by
  induction m with
  | nil => simp [insertOrdered, keys, occStep]
  | cons p rest ih =>
    obtain ⟨k', v'⟩ := p
    by_cases h : k' = k
    · subst h
      simp [insertOrdered, keys, occStep]
    · simp only [insertOrdered, if_neg h, keys, List.map_cons] at ih ⊢
      rw [ih]
      unfold occStep
      by_cases hm : k ∈ List.map Prod.fst rest
      · rw [if_pos hm, if_pos (List.mem_cons_of_mem _ hm)]
      · rw [if_neg hm, if_neg (by simp [hm, Ne.symm h]), List.cons_append]

theorem alookup_insertOrdered_self (m : List (String × Rec)) (k : String) (v : Rec) :
    alookup (insertOrdered m k v) k = some v := by
  induction m with
  | nil => simp [insertOrdered, alookup]
  | cons p rest ih =>
    obtain ⟨k', v'⟩ := p
    by_cases h : k' = k <;> simp [insertOrdered, alookup, h, ih]

theorem alookup_insertOrdered_ne (m : List (String × Rec)) (k k' : String) (v : Rec)
    (h : k' ≠ k) : alookup (insertOrdered m k v) k' = alookup m k' := by
  induction m with
  | nil => simp [insertOrdered, alookup, Ne.symm h]
  | cons p rest ih =>
    obtain ⟨k'', v''⟩ := p
    by_cases h2 : k'' = k
    · subst h2
      simp [insertOrdered, alookup, Ne.symm h]
    · by_cases h3 : k'' = k'
      · subst h3
        simp [insertOrdered, alookup, h2]
      · simp [insertOrdered, alookup, h2, h3, ih]

theorem alookup_build (u : String) (rs : List Rec) :
    ∀ m : List (String × Rec),
      alookup (rs.foldl (fun m r => insertOrdered m r.url r) m) u =
        (lastWith u rs).or (alookup m u) := by
  induction rs with
  | nil => intro m; simp [lastWith, Option.or]
  | cons r rest ih =>
    intro m
    rw [List.foldl_cons, ih]
    cases hl : lastWith u rest with
    | some x => simp [lastWith, hl, Option.or]
    | none =>
      by_cases h : r.url = u
      · subst h
        simp [lastWith, hl, Option.or, alookup_insertOrdered_self]
      · simp [lastWith, hl, Option.or, h,
          alookup_insertOrdered_ne m r.url u r (fun he => h he.symm)]

theorem keys_build (rs : List Rec) :
    ∀ m : List (String × Rec),
      keys (rs.foldl (fun m r => insertOrdered m r.url r) m) =
        (rs.map (fun r => r.url)).foldl occStep (keys m) := by
  induction rs with
  | nil => intro m; simp
  | cons r rest ih => intro m; simp [ih, keys_insertOrdered]

theorem nodup_foldl_occStep (l : List String) :
    ∀ ks : List String, ks.Nodup → (l.foldl occStep ks).Nodup := by
  induction l with
  | nil => intro ks h; simpa
  | cons x xs ih =>
    intro ks h
    rw [List.foldl_cons]
    apply ih
    by_cases hm : x ∈ ks
    · simpa [occStep, hm]
    · simp [occStep, hm, List.nodup_append, h]

theorem mem_foldl_occStep (l : List String) :
    ∀ (ks : List String) (u : String), u ∈ l.foldl occStep ks ↔ u ∈ ks ∨ u ∈ l := by
  induction l with
  | nil => simp
  | cons x xs ih =>
    intro ks u
    rw [List.foldl_cons, ih]
    by_cases hm : x ∈ ks
    · simp only [occStep, if_pos hm, List.mem_cons]
      constructor
      · rintro (h | h)
        · exact Or.inl h
        · exact Or.inr (Or.inr h)
      · rintro (h | rfl | h)
        · exact Or.inl h
        · exact Or.inl hm
        · exact Or.inr h
    · simp only [occStep, if_neg hm, List.mem_append, List.mem_singleton, List.mem_cons]
      tauto

theorem mem_insertOrdered {p : String × Rec} {m : List (String × Rec)} {k : String} {v : Rec}
    (h : p ∈ insertOrdered m k v) : p ∈ m ∨ p = (k, v) := by
  induction m with
  | nil => simpa [insertOrdered] using h
  | cons q rest ih =>
    obtain ⟨k', v'⟩ := q
    by_cases h2 : k' = k
    · subst h2
      rcases (by simpa [insertOrdered] using h : p = (k', v) ∨ p ∈ rest) with h3 | h3
      · exact Or.inr h3
      · exact Or.inl (List.mem_cons_of_mem _ h3)
    · rcases (by simpa [insertOrdered, h2] using h :
          p = (k', v') ∨ p ∈ insertOrdered rest k v) with h3 | h3
      · exact Or.inl (by simp [h3])
      · rcases ih h3 with h4 | h4
        · exact Or.inl (List.mem_cons_of_mem _ h4)
        · exact Or.inr h4

theorem build_key_eq_url (rs : List Rec) :
    ∀ m : List (String × Rec), (∀ p ∈ m, p.1 = p.2.url) →
      ∀ p ∈ rs.foldl (fun m r => insertOrdered m r.url r) m, p.1 = p.2.url := by
  induction rs with
  | nil => intro m h; exact h
  | cons r rest ih =>
    intro m h
    apply ih
    intro p hp
    rcases mem_insertOrdered hp with h1 | h1
    · exact h p h1
    · subst h1; rfl

theorem alookup_of_mem_nodup (m : List (String × Rec)) (hn : (keys m).Nodup)
    (k : String) (v : Rec) (h : (k, v) ∈ m) : alookup m k = some v := by
  induction m with
  | nil => simp at h
  | cons p rest ih =>
    obtain ⟨k', v'⟩ := p
    rcases List.mem_cons.mp h with h1 | h1
    · rw [Prod.mk.injEq] at h1
      simp [alookup, h1.1.symm, h1.2]
    · rw [show keys ((k', v') :: rest) = k' :: keys rest from rfl, List.nodup_cons] at hn
      have hk : k ≠ k' := by
        intro he
        subst he
        exact hn.1 (by simpa [keys] using List.mem_map_of_mem Prod.fst h1)
      simp [alookup, Ne.symm hk, ih hn.2 h1]

theorem map_url_dedupByUrl (rs : List Rec) :
    (dedupByUrl rs).map (fun r => r.url) = firstOccs (rs.map (fun r => r.url)) := by
  unfold dedupByUrl firstOccs
  rw [List.map_map]
  have hkey := build_key_eq_url rs [] (by simp)
  calc List.map ((fun r => r.url) ∘ Prod.snd)
          (List.foldl (fun m r => insertOrdered m r.url r) [] rs)
      = List.map Prod.fst (List.foldl (fun m r => insertOrdered m r.url r) [] rs) :=
        List.map_congr_left (fun p hp => (hkey p hp).symm)
    _ = List.foldl occStep [] (List.map (fun r => r.url) rs) := by
        have hk := keys_build rs []
        simpa [keys] using hk

theorem nodup_dedupByUrl (rs : List Rec) :
    ((dedupByUrl rs).map (fun r => r.url)).Nodup := by
  rw [map_url_dedupByUrl]
  exact nodup_foldl_occStep _ [] List.nodup_nil

theorem mem_url_dedupByUrl (rs : List Rec) (u : String) :
    u ∈ (dedupByUrl rs).map (fun r => r.url) ↔ u ∈ rs.map (fun r => r.url) := by
  rw [map_url_dedupByUrl]
  unfold firstOccs
  rw [mem_foldl_occStep]
  simp

theorem mem_dedupByUrl_lastWith {rs : List Rec} {r : Rec} (h : r ∈ dedupByUrl rs) :
    lastWith r.url rs = some r := by
  unfold dedupByUrl at h
  rcases List.mem_map.mp h with ⟨p, hp, hsnd⟩
  have hfst : p.1 = p.2.url := build_key_eq_url rs [] (by simp) p hp
  have hnod : (keys (rs.foldl (fun m r => insertOrdered m r.url r) [])).Nodup := by
    rw [keys_build]
    exact nodup_foldl_occStep _ _ List.nodup_nil
  have hlk : alookup (rs.foldl (fun m r => insertOrdered m r.url r) []) p.1 = some p.2 := by
    apply alookup_of_mem_nodup _ hnod
    simpa using hp
  rw [alookup_build] at hlk
  subst hsnd
  rw [hfst] at hlk
  cases hlast : lastWith (p.2.url) rs with
  | none => rw [hlast] at hlk; simp [alookup, Option.or] at hlk
  | some x => rw [hlast] at hlk; simpa [Option.or] using hlk

/-- C1: for every sequence of grounding chunks, `search_google` returns
exactly one record per unique URL among the extracted records; the
surviving record for a URL is the one from the last chunk carrying that
URL (overwrite on duplicate), and the output order follows the first
appearance of each URL in chunk order. -/
theorem search_google_dedup_spec (chunks : List Chunk) :
    ((search_google chunks).map (fun r => r.url)).Nodup ∧
    (search_google chunks).map (fun r => r.url) =
      firstOccs ((extractRecords chunks).map (fun r => r.url)) ∧
    (∀ u, u ∈ (search_google chunks).map (fun r => r.url) ↔
      u ∈ (extractRecords chunks).map (fun r => r.url)) ∧
    (∀ r, r ∈ search_google chunks →
      lastWith r.url (extractRecords chunks) = some r) :=
  ⟨nodup_dedupByUrl _, map_url_dedupByUrl _, fun u => mem_url_dedupByUrl _ u,
    fun _ h => mem_dedupByUrl_lastWith h⟩

/-- Witness for C1 on a concrete chunk list with a duplicated URL. -/
theorem search_google_dedup_spec_witness :
    (mkGoogleRec ⟨"u1", "t3"⟩) ∈
      search_google [⟨some ⟨"u1", "t1"⟩⟩, ⟨some ⟨"u2", "t2"⟩⟩, ⟨some ⟨"u1", "t3"⟩⟩] ∧
    lastWith "u1"
      (extractRecords [⟨some ⟨"u1", "t1"⟩⟩, ⟨some ⟨"u2", "t2"⟩⟩, ⟨some ⟨"u1", "t3"⟩⟩]) =
      some (mkGoogleRec ⟨"u1", "t3"⟩) :=
  ⟨by decide,
    (search_google_dedup_spec
      [⟨some ⟨"u1", "t1"⟩⟩, ⟨some ⟨"u2", "t2"⟩⟩, ⟨some ⟨"u1", "t3"⟩⟩]).2.2.2
      (mkGoogleRec ⟨"u1", "t3"⟩) (by decide)⟩

/-- C2 counterexample: with two chunks sharing the URL "u", the record
kept by `search_google` is the one built from the second (last)
occurrence, not the first, refuting first-occurrence-wins. -/
theorem search_google_first_wins_false :
    search_google [⟨some ⟨"u", "t1"⟩⟩, ⟨some ⟨"u", "t2"⟩⟩] =
      [mkGoogleRec ⟨"u", "t2"⟩] ∧
    search_google [⟨some ⟨"u", "t1"⟩⟩, ⟨some ⟨"u", "t2"⟩⟩] ≠
      [mkGoogleRec ⟨"u", "t1"⟩] := by
  decide

/-- C2 (amended): for every sequence of grounding chunks containing two
chunks with the same URL, `search_google` keeps the record built from
the last occurrence of that URL and drops the earlier duplicates. -/
theorem search_google_last_occurrence_wins (chunks : List Chunk) (r : Rec)
    (h : r ∈ search_google chunks) :
    lastWith r.url (extractRecords chunks) = some r :=
  mem_dedupByUrl_lastWith h

/-- Witness for the amended C2 at a concrete duplicated-URL input. -/
theorem search_google_last_occurrence_wins_witness :
    lastWith "u" (extractRecords [⟨some ⟨"u", "t1"⟩⟩, ⟨some ⟨"u", "t2"⟩⟩]) =
      some (mkGoogleRec ⟨"u", "t2"⟩) :=
  search_google_last_occurrence_wins [⟨some ⟨"u", "t1"⟩⟩, ⟨some ⟨"u", "t2"⟩⟩]
    (mkGoogleRec ⟨"u", "t2"⟩) (by decide)

/-- C3: `search_cinii` returns the empty list rather than raising
whenever the transport fails, the HTTP status is not 200, or the
response body fails to parse as XML; being a total function into
`List Rec`, no exception propagates to the caller. -/
theorem search_cinii_soft_failure (status : Nat) (body : Except Unit (List Item)) :
    search_cinii .fail = [] ∧
    (status ≠ 200 → search_cinii (.resp status body) = []) ∧
    (∀ e, body = .error e → search_cinii (.resp status body) = []) := by
  refine ⟨rfl, fun h => by simp [search_cinii, h], fun e he => ?_⟩
  subst he
  by_cases h : status = 200 <;> simp [search_cinii, h]

/-- Witness for C3 at a 404 response and at a parse failure. -/
theorem search_cinii_soft_failure_witness :
    search_cinii (.resp 404 (.ok [])) = [] ∧
    search_cinii (.resp 200 (.error ())) = [] :=
  ⟨(search_cinii_soft_failure 404 (.ok [])).2.1 (by decide),
   (search_cinii_soft_failure 200 (.error ())).2.2 () rfl⟩

/-- C4 counterexample: the description " a " has length 3 ≤ 300, yet the
resulting summary is the stripped text "a", not the raw description
verbatim. -/
theorem cinii_summary_verbatim_false :
    (parseItem ⟨none, none, some " a ", [], none⟩).summary = "a" ∧
    (parseItem ⟨none, none, some " a ", [], none⟩).summary ≠ " a " := by
  decide

/-- C4 (amended): for every feed item whose description text is present
and non-empty, the summary equals the stripped description verbatim
when the stripped text has at most 300 characters, and its first 300
characters followed by "..." when it is longer. -/
theorem cinii_summary_truncation (item : Item) (d : String)
    (hd : item.description = some d) (hne : d ≠ "") :
    (parseItem item).summary =
      if (pyStrip d).length > 300 then pyTake 300 (pyStrip d) ++ "..."
      else pyStrip d := by
  simp [parseItem, hd, hne]

set_option maxRecDepth 8192 in
/-- Witness for the amended C4 at a 301-character description. -/
theorem cinii_summary_truncation_witness :
    (parseItem ⟨none, none, some (String.mk (List.replicate 301 'a')), [], none⟩).summary =
      String.mk (List.replicate 300 'a') ++ "..." :=
  (cinii_summary_truncation
    ⟨none, none, some (String.mk (List.replicate 301 'a')), [], none⟩
    (String.mk (List.replicate 301 'a')) rfl (by decide)).trans (by decide)

/-- C5 counterexample: an item with no description yields the summary
placeholder "No description available.", not the string "No summary
available." the claim cites. -/
theorem cinii_placeholder_string_false :
    (parseItem ⟨none, none, none, [], none⟩).summary = "No description available." ∧
    (parseItem ⟨none, none, none, [], none⟩).summary ≠ "No summary available." := by
  decide

/-- C5 (amended): a well-formed payload with N items yields exactly N
records; an item missing its title or description yields the fixed
placeholders "No Title" and "No description available.", and an item
missing its creator elements contributes an empty joined-names part, so
its authors string is exactly the " (date)" suffix when a publication
date element is present and the empty string when it is absent — no
item is dropped and no item fails the whole parse. -/
theorem cinii_count_and_placeholders (items : List Item) (item : Item) :
    (search_cinii (.resp 200 (.ok items))).length = items.length ∧
    (item.title = none → (parseItem item).title = "No Title") ∧
    (item.description = none →
      (parseItem item).summary = "No description available.") ∧
    (item.creators = [] → item.pubDate = none →
      (parseItem item).authors = some "") ∧
    (∀ d, item.creators = [] → item.pubDate = some d → d ≠ "" →
      (parseItem item).authors = some (" (" ++ d ++ ")")) := by
  refine ⟨by simp [search_cinii], fun h => by simp [parseItem, h],
    fun h => ?_, fun h1 h2 => by simp [parseItem, h1, h2, String.intercalate],
    fun d h1 h2 hne => by simp [parseItem, h1, h2, hne, String.intercalate]⟩
  simp [parseItem, h]
  intro hlen
  exact absurd hlen (by decide)

/-- Witness for the amended C5 at a single all-empty item and at a
creator-less item carrying a publication date. -/
theorem cinii_count_and_placeholders_witness :
    (search_cinii (.resp 200 (.ok [⟨none, none, none, [], none⟩]))).length = 1 ∧
    (parseItem ⟨none, none, none, [], none⟩).title = "No Title" ∧
    (parseItem ⟨none, none, none, [], none⟩).summary = "No description available." ∧
    (parseItem ⟨none, none, none, [], none⟩).authors = some "" ∧
    (parseItem ⟨none, none, none, [], some "2020"⟩).authors = some " (2020)" :=
  have h1 := cinii_count_and_placeholders [⟨none, none, none, [], none⟩]
    ⟨none, none, none, [], none⟩
  have h2 := cinii_count_and_placeholders [⟨none, none, none, [], none⟩]
    ⟨none, none, none, [], some "2020"⟩
  ⟨h1.1, h1.2.1 rfl, h1.2.2.1 rfl, h1.2.2.2.1 rfl rfl,
   h2.2.2.2.2 "2020" rfl rfl (by decide)⟩

/-- C6 counterexample: the title "a\nb" keeps its interior newline — the
code only strips leading and trailing whitespace, it does not replace
newlines with spaces. -/
theorem cinii_title_newline_false :
    (parseItem ⟨some "a\nb", none, none, [], none⟩).title = "a\nb" ∧
    (parseItem ⟨some "a\nb", none, none, [], none⟩).title ≠ "a b" := by
  decide

/-- C6 (amended): for every feed item whose title text is present and
non-empty, the record title is the raw title trimmed of leading and
trailing whitespace, with interior characters (newlines included) left
untouched. -/
theorem cinii_title_strip (item : Item) (t : String)
    (ht : item.title = some t) (hne : t ≠ "") :
    (parseItem item).title = pyStrip t := by
  simp [parseItem, ht, hne]

/-- Witness for the amended C6 at a title with surrounding whitespace
and an interior newline. -/
theorem cinii_title_strip_witness :
    (parseItem ⟨some " x\ny ", none, none, [], none⟩).title = "x\ny" :=
  (cinii_title_strip ⟨some " x\ny ", none, none, [], none⟩ " x\ny " rfl
    (by decide)).trans (by decide)

/-- C7: for each source section, an empty record sequence renders the
literal "No results found." placeholder and no card blocks, while a
non-empty sequence renders exactly the concatenation of one card block
per record, in sequence order. -/
theorem html_sections_spec (rs : List Rec) :
    (rs = [] →
      google_html rs = "<p>No results found.</p>" ∧
      cinii_html rs = "<p>No results found.</p>" ∧
      hasSub "<div class=\"card\">".data (google_html rs).data = false ∧
      hasSub "<div class=\"card\">".data (cinii_html rs).data = false) ∧
    (rs ≠ [] →
      google_html rs = String.join (rs.map googleCard) ∧
      cinii_html rs = String.join (rs.map ciniiCard)) := by
  constructor
  · rintro rfl
    exact ⟨rfl, rfl, by decide, by decide⟩
  · intro h
    match rs, h with
    | r :: rest, _ =>
      constructor
      · rw [google_html]
        simp only [List.isEmpty_cons, if_neg (by decide : ¬false = true)]
        rw [String.join, List.foldl_map]
      · rw [cinii_html]
        simp only [List.isEmpty_cons, if_neg (by decide : ¬false = true)]
        rw [String.join, List.foldl_map]

/-- Witness for C7 at the empty list and a one-record list. -/
theorem html_sections_spec_witness :
    google_html [] = "<p>No results found.</p>" ∧
    cinii_html ([] : List Rec) = "<p>No results found.</p>" ∧
    google_html [⟨"t", "u", "s", none, "Google"⟩] =
      String.join ([(⟨"t", "u", "s", none, "Google"⟩ : Rec)].map googleCard) ∧
    cinii_html [⟨"t", "u", "s", some "a", "CiNii"⟩] =
      String.join ([(⟨"t", "u", "s", some "a", "CiNii"⟩ : Rec)].map ciniiCard) :=
  ⟨((html_sections_spec []).1 rfl).1, ((html_sections_spec []).1 rfl).2.1,
   ((html_sections_spec [⟨"t", "u", "s", none, "Google"⟩]).2
     (List.cons_ne_nil _ _)).1,
   ((html_sections_spec [⟨"t", "u", "s", some "a", "CiNii"⟩]).2
     (List.cons_ne_nil _ _)).2⟩

/-- C8: the renderer splices the title, url, summary (and, on CiNii
cards, the authors string) into the markup verbatim: each field occurs
as a contiguous, unmodified substring of its card, with no character
escaped, replaced, or removed. -/
theorem cards_interpolate_verbatim (r : Rec) :
    (∃ a b, googleCard r = a ++ (r.title ++ b)) ∧
    (∃ a b, googleCard r = a ++ (r.url ++ b)) ∧
    (∃ a b, googleCard r = a ++ (r.summary ++ b)) ∧
    (∃ a b, ciniiCard r = a ++ (r.title ++ b)) ∧
    (∃ a b, ciniiCard r = a ++ (r.url ++ b)) ∧
    (∃ a b, ciniiCard r = a ++ (r.summary ++ b)) ∧
    (∃ a b, ciniiCard r = a ++ (r.authors.getD "" ++ b)) := by
  refine ⟨⟨"<div class=\"card\"><div class=\"title\"><a href=\"" ++
      (r.url ++ "\" target=\"_blank\">"),
      "</a></div><div class=\"meta\">" ++
      (r.url ++ ("</div><div class=\"summary\">" ++
        (r.summary ++ "</div></div>"))), ?_⟩,
    ⟨"<div class=\"card\"><div class=\"title\"><a href=\"",
      "\" target=\"_blank\">" ++ (r.title ++
      ("</a></div><div class=\"meta\">" ++ (r.url ++
        ("</div><div class=\"summary\">" ++
          (r.summary ++ "</div></div>"))))), ?_⟩,
    ⟨"<div class=\"card\"><div class=\"title\"><a href=\"" ++
      (r.url ++ ("\" target=\"_blank\">" ++ (r.title ++
      ("</a></div><div class=\"meta\">" ++ (r.url ++
        "</div><div class=\"summary\">"))))), "</div></div>", ?_⟩,
    ⟨"<div class=\"card\"><div class=\"title\"><a href=\"" ++
      (r.url ++ "\" target=\"_blank\">"),
      "</a></div><div class=\"meta\"><strong>Authors/Date:</strong> " ++
      (r.authors.getD "" ++ ("</div><div class=\"summary\">" ++
        (r.summary ++ "</div></div>"))), ?_⟩,
    ⟨"<div class=\"card\"><div class=\"title\"><a href=\"",
      "\" target=\"_blank\">" ++ (r.title ++
      ("</a></div><div class=\"meta\"><strong>Authors/Date:</strong> " ++
        (r.authors.getD "" ++ ("</div><div class=\"summary\">" ++
          (r.summary ++ "</div></div>"))))), ?_⟩,
    ⟨"<div class=\"card\"><div class=\"title\"><a href=\"" ++
      (r.url ++ ("\" target=\"_blank\">" ++ (r.title ++
      ("</a></div><div class=\"meta\"><strong>Authors/Date:</strong> " ++
        (r.authors.getD "" ++ "</div><div class=\"summary\">"))))),
      "</div></div>", ?_⟩,
    ⟨"<div class=\"card\"><div class=\"title\"><a href=\"" ++
      (r.url ++ ("\" target=\"_blank\">" ++ (r.title ++
      "</a></div><div class=\"meta\"><strong>Authors/Date:</strong> "))),
      "</div><div class=\"summary\">" ++
        (r.summary ++ "</div></div>"), ?_⟩⟩ <;>
  simp [googleCard, ciniiCard, String.append_assoc]

/-- C9 counterexample: an item with creator "A" and publication date
"2020" gets the authors string "A (2020)" — the date suffix is appended
after the comma-joined names, refuting "nothing else appended". -/
theorem cinii_authors_join_false :
    (parseItem ⟨none, none, none, [some "A"], some "2020"⟩).authors =
      some "A (2020)" ∧
    (parseItem ⟨none, none, none, [some "A"], some "2020"⟩).authors ≠
      some "A" := by
  decide

/-- C9 (amended): the authors field is the item's non-empty creator
names joined with ", ", with " (date)" appended exactly when a
publication date is present, and nothing appended when it is absent. -/
theorem cinii_authors_join (item : Item) :
    (item.pubDate = none →
      (parseItem item).authors =
        some (String.intercalate ", "
          ((item.creators.filterMap id).filter (fun s => s ≠ "")))) ∧
    (∀ d, item.pubDate = some d → d ≠ "" →
      (parseItem item).authors =
        some (String.intercalate ", "
          ((item.creators.filterMap id).filter (fun s => s ≠ "")) ++
          (" (" ++ d ++ ")"))) := by
  constructor
  · intro h
    simp [parseItem, h]
  · intro d h hne
    simp [parseItem, h, hne]

/-- Witness for the amended C9 at two creators with and without a date. -/
theorem cinii_authors_join_witness :
    (parseItem ⟨none, none, none, [some "A", some "B"], some "2020"⟩).authors =
      some "A, B (2020)" ∧
    (parseItem ⟨none, none, none, [some "A", some "B"], none⟩).authors =
      some "A, B" :=
  ⟨((cinii_authors_join ⟨none, none, none, [some "A", some "B"], some "2020"⟩).2
      "2020" rfl (by decide)).trans (by decide),
   ((cinii_authors_join ⟨none, none, none, [some "A", some "B"], none⟩).1
      rfl).trans (by decide)⟩

/-- C10: a feed item with no link element, or a link with empty text,
still yields a record — its url field is the empty string, the record is
not skipped — and the CiNii card rendered for that record carries an
empty anchor href attribute. -/
theorem cinii_missing_link_empty_href (item : Item)
    (h : item.link = none ∨ item.link = some "") :
    (parseItem item).url = "" ∧
    ∃ a b, ciniiCard (parseItem item) = a ++ ("href=\"\"" ++ b) := by
  have hurl : (parseItem item).url = "" := by
    rcases h with h | h <;> simp [parseItem, h]
  refine ⟨hurl, "<div class=\"card\"><div class=\"title\"><a ",
    " target=\"_blank\">" ++ ((parseItem item).title ++
      ("</a></div><div class=\"meta\"><strong>Authors/Date:</strong> " ++
        ((parseItem item).authors.getD "" ++
          ("</div><div class=\"summary\">" ++
            ((parseItem item).summary ++ "</div></div>"))))), ?_⟩
  rw [ciniiCard, hurl]
  simp only [← String.append_assoc]
  rw [show (("<div class=\"card\"><div class=\"title\"><a href=\"" ++ "") ++
      "\" target=\"_blank\">" : String) =
    (("<div class=\"card\"><div class=\"title\"><a " ++ "href=\"\"") ++
      " target=\"_blank\">") from by decide]

/-- Witness for C10 at a concrete item with no link element. -/
theorem cinii_missing_link_empty_href_witness :
    (parseItem ⟨some "T", none, some "S", [some "A"], none⟩).url = "" ∧
    ∃ a b, ciniiCard (parseItem ⟨some "T", none, some "S", [some "A"], none⟩) =
      a ++ ("href=\"\"" ++ b) :=
  cinii_missing_link_empty_href ⟨some "T", none, some "S", [some "A"], none⟩
    (Or.inl rfl)
